import Mathlib

/-!
Shallow embedding of `src/starter_server.py` (the scrape/lookup MCP server).

The two tools `scrape_websites` and `extract_scraped_info` are modelled as
pure Lean functions over an explicit environment (the external scraping
collaborator, the environment-variable source, the clock) and an explicit
disk state.  Side effects (directory creation, content-file writes,
collaborator calls, the final metadata-store write) are recorded as an
explicit event trace so that temporal claims about write ordering can be
stated.  Python exceptions become `Except PyError`; the untyped JSON
dictionaries become the `Json` inductive with `dict.get`-style accessors
that raise `AttributeError` when applied to a non-object, exactly as the
dynamic code would.
-/

set_option autoImplicit false

namespace StarterServer

/-- Python exception classes that can arise in the modelled code paths. -/
inductive PyError where
  /-- Python `ValueError(msg)` — raised for the missing API key and for non-200 scrape status. -/
  | valueError (msg : String)
  /-- Python `FileNotFoundError(msg)` — missing metadata file or missing directory. -/
  | fileNotFoundError (msg : String)
  /-- Python `TypeError` — e.g. `f.write` applied to a non-string. -/
  | typeError
  /-- Python `AttributeError` — `.get` applied to a non-dict value. -/
  | attributeError
  /-- Any exception raised inside the external scraping collaborator. -/
  | collaboratorError (msg : String)
  deriving Repr, DecidableEq

/-- Python `str(e)` on a caught exception, as used in the failure record.
Messages of runtime errors are approximated; `ValueError` carries its text. -/
def errString : PyError → String
  | .valueError msg => msg
  | .fileNotFoundError msg => msg
  | .typeError => "write() argument must be str"
  | .attributeError => "object has no attribute get"
  | .collaboratorError msg => msg

/-- Untyped JSON values, the shape of Python dicts the code manipulates. -/
inductive Json where
  | null
  | bool (b : Bool)
  | num (n : Int)
  | str (s : String)
  | arr (elems : List Json)
  | obj (fields : List (String × Json))

/-- First-match lookup in the field list of a JSON object (Python dict lookup). -/
def alistGet {α : Type} (d : List (String × α)) (k : String) : Option α :=
  match d with
  | [] => none
  | (k₀, v) :: rest => if k₀ = k then some v else alistGet rest k

/-- Python `d.get(k, default)`: requires `d` to be a dict, else `AttributeError`. -/
def Json.dictGet (j : Json) (k : String) (dflt : Json) : Except PyError Json :=
  match j with
  | .obj fields => .ok ((alistGet fields k).getD dflt)
  | _ => .error .attributeError

/-- Python truthiness of a JSON value (`if content:`). -/
def Json.truthy : Json → Bool
  | .null => false
  | .bool b => b
  | .num n => n != 0
  | .str s => s != ""
  | .arr elems => !elems.isEmpty
  | .obj fields => !fields.isEmpty

/-- Python `x != 200` where `x` is an arbitrary JSON value and 200 an int:
only the integer 200 compares equal. -/
def Json.ne200 : Json → Bool
  | .num n => n != 200
  | _ => true

/-- Rough Python `str()` of a JSON value, used only inside error-message text. -/
def pyStr : Json → String
  | .null => "None"
  | .bool b => if b then "True" else "False"
  | .num n => toString n
  | .str s => s
  | .arr _ => "[...]"
  | .obj _ => "\x7b...\x7d"

/-- Python dict assignment `d[k] = v`: replaces the value in place when the
key is present (dicts keep the original position on update), appends
otherwise.  Python dicts never hold a key twice, so replacing at the first
occurrence is the dict-assignment semantics. -/
def dictInsert {α : Type} (d : List (String × α)) (k : String) (v : α) :
    List (String × α) :=
  match d with
  | [] => [(k, v)]
  | p :: rest => if p.1 = k then (k, v) :: rest else p :: dictInsert rest k v

/-- The characters after the first `://`, up to the next `/`, `?` or `#`;
empty when the input has no `://`. -/
def netlocChars : List Char → List Char
  | [] => []
  | ':' :: '/' :: '/' :: rest => rest.takeWhile (fun c => c ≠ '/' ∧ c ≠ '?' ∧ c ≠ '#')
  | _ :: rest => netlocChars rest

/-- Model of the Python `urlparse(url).netloc` call (external stdlib collaborator):
the host component between the `://` separator and the next `/`, `?` or `#`;
empty when the URL has no scheme separator. -/
def urlNetloc (url : String) : String :=
  String.mk (netlocChars url.toList)

/-- The constant `SCRAPE_DIR = "scraped_content"`. -/
def SCRAPE_DIR : String := "scraped_content"

/-- Model of `os.path.join` for the two-component paths the code builds. -/
def joinPath (a b : String) : String := a ++ "/" ++ b

/-- The path `os.path.join(path, "scraped_metadata.json")`. -/
def metadataFile : String := joinPath SCRAPE_DIR "scraped_metadata.json"

/-- Outcome part of a ScrapeRecord: the success variant carries
`content_files`, `title` and `description`; the failure variant carries
`error` (`str(e)` of the caught exception).  `title`/`description` are kept
as `Json` because the code stores whatever `.get(..., "")` returned. -/
inductive ScrapeOutcome where
  | success (content_files : List (String × String)) (title description : Json)
  | failure (error : String)

/-- One entry of `scraped_metadata`, as built at lines 111–121 / 128–136. -/
structure ScrapeRecord where
  provider_name : String
  url : String
  domain : String
  scraped_at : String
  formats : List String
  outcome : ScrapeOutcome

/-- The metadata store: a Python dict keyed by provider name, in insertion order. -/
abbrev Store : Type := List (String × ScrapeRecord)

/-- Truthiness of `matched_entry.get("content_files")`: a non-empty dict. -/
def ScrapeRecord.hasContentFiles (r : ScrapeRecord) : Bool :=
  match r.outcome with
  | .success cf _ _ => !cf.isEmpty
  | .failure _ => false

/-- The `content_files` mapping of a record (empty for failure records). -/
def ScrapeRecord.contentFiles (r : ScrapeRecord) : List (String × String) :=
  match r.outcome with
  | .success cf _ _ => cf
  | .failure _ => []

/-- The `success` flag of a record. -/
def ScrapeRecord.succeeded (r : ScrapeRecord) : Bool :=
  match r.outcome with
  | .success _ _ _ => true
  | .failure _ => false

/-- Observable side effects of one `scrape_websites` invocation, in order. -/
inductive Event where
  /-- The call `os.makedirs(path, exist_ok=True)`. -/
  | makedirs (path : String)
  /-- The call `app.scrape(url=url, formats=formats)` with the resolved API key. -/
  | scrapeCall (apiKey url : String) (formats : List String)
  /-- Writing one content file (`open(filepath, "w"); f.write(content)`). -/
  | writeContent (path content : String)
  /-- The single `json.dump(scraped_metadata, f)` at the end of the batch. -/
  | writeStore (path : String) (store : Store)

/-- Recognizer for the metadata-store write event. -/
def Event.isWriteStore : Event → Bool
  | .writeStore _ _ => true
  | _ => false

/-- The external world `scrape_websites` interacts with: the Firecrawl
collaborator (`app.scrape(...).model_dump()`, which may raise), the
environment-variable source (`os.getenv`), and the clock
(`datetime.utcnow().isoformat()`, one reading per record built). -/
structure ScrapeEnv where
  scrapeFn : String → String → List String → Except PyError Json
  getenv : String → Option String
  now : String

/-- Lines 94–96: inspect `scrape_result.get("metadata", {}).get("status_code", 0)`
and raise `ValueError` when it is not 200.  The error message itself reads
`scrape_result.get("data", {}).get("metadata", {}).get("error", "Unknown error")`,
a chain that can raise `AttributeError` of its own while the message is built. -/
def statusCheck (scrape_result : Json) (provider_name url : String) :
    Except PyError Unit := do
  let meta ← scrape_result.dictGet "metadata" (.obj [])
  let status ← meta.dictGet "status_code" (.num 0)
  if status.ne200 then
    let d ← scrape_result.dictGet "data" (.obj [])
    let dm ← d.dictGet "metadata" (.obj [])
    let errVal ← dm.dictGet "error" (.str "Unknown error")
    .error (.valueError ("Scrape failed for " ++ provider_name ++ " at " ++ url ++
      " with error: " ++ pyStr errVal))
  else
    .ok ()

/-- Lines 101–109: the per-format loop.  For each requested format, read
`scrape_result.get(fmt, None)`; when truthy, write the content to
`{provider_name}_{fmt}.txt` (a `TypeError` if it is not a string) and record
the filename in `content_files`.  Returns the write events that actually
happened (they persist even when a later step raises) together with either
the finished `content_files` dict or the exception that stopped the loop. -/
def writeFormats (provider_name : String) (scrape_result : Json) :
    List String → List (String × String) → List Event →
    List Event × Except PyError (List (String × String))
  | [], content_files, evts => (evts, .ok content_files)
  | fmt :: rest, content_files, evts =>
      match scrape_result.dictGet fmt .null with
      | .error e => (evts, .error e)
      | .ok content =>
          if content.truthy then
            match content with
            | .str s =>
                let filename := provider_name ++ "_" ++ fmt ++ ".txt"
                writeFormats provider_name scrape_result rest
                  (dictInsert content_files fmt filename)
                  (evts ++ [.writeContent (joinPath SCRAPE_DIR filename) s])
            | _ => (evts, .error .typeError)
          else
            writeFormats provider_name scrape_result rest content_files evts

/-- Lines 119–120: `scrape_result_data.get("metadata", {}).get("title", "")`
and the same for `"description"`, where `scrape_result_data` is the top-level
`"metadata"` object of the response. -/
def titleDescription (scrape_result_data : Json) : Except PyError (Json × Json) :=
  match scrape_result_data.dictGet "metadata" (.obj []) with
  | .error e => .error e
  | .ok nested =>
      match nested.dictGet "title" (.str "") with
      | .error e => .error e
      | .ok title =>
          match nested.dictGet "description" (.str "") with
          | .error e => .error e
          | .ok description => .ok (title, description)

/-- The body of the `try:` block at lines 90–124 for one provider: call the
collaborator, check the status, write the per-format files, then build the
success record.  Returns the events performed (the collaborator call and any
completed file writes) and either the success record or the exception that
the `except` at line 126 will catch. -/
def tryScrapeProvider (E : ScrapeEnv) (apiKey provider_name url : String)
    (formats : List String) : List Event × Except PyError ScrapeRecord :=
  let callEvt : List Event := [.scrapeCall apiKey url formats]
  match E.scrapeFn apiKey url formats with
  | .error e => (callEvt, .error e)
  | .ok scrape_result =>
      match statusCheck scrape_result provider_name url with
      | .error e => (callEvt, .error e)
      | .ok _ =>
          match scrape_result.dictGet "metadata" (.obj []) with
          | .error e => (callEvt, .error e)
          | .ok scrape_result_data =>
              match writeFormats provider_name scrape_result formats [] [] with
              | (wEvts, .error e) => (callEvt ++ wEvts, .error e)
              | (wEvts, .ok content_files) =>
                  match titleDescription scrape_result_data with
                  | .error e => (callEvt ++ wEvts, .error e)
                  | .ok (title, description) =>
                      (callEvt ++ wEvts, .ok
                        { provider_name := provider_name
                          url := url
                          domain := urlNetloc url
                          scraped_at := E.now
                          formats := formats
                          outcome := .success content_files title description })

/-- Lines 128–136: the failure record built in the `except` branch. -/
def failureRecord (E : ScrapeEnv) (provider_name url : String)
    (formats : List String) (e : PyError) : ScrapeRecord :=
  { provider_name := provider_name
    url := url
    domain := urlNetloc url
    scraped_at := E.now
    formats := formats
    outcome := .failure (errString e) }

/-- The record stored for one provider by the batch: the success record when
the `try:` body completes, the failure record for the caught exception otherwise. -/
def providerRecord (E : ScrapeEnv) (apiKey provider_name url : String)
    (formats : List String) : ScrapeRecord :=
  match (tryScrapeProvider E apiKey provider_name url formats).2 with
  | .ok r => r
  | .error e => failureRecord E provider_name url formats e

/-- Whether the `try:` body for one provider completes without an exception. -/
def providerSucceeds (E : ScrapeEnv) (apiKey provider_name url : String)
    (formats : List String) : Bool :=
  match (tryScrapeProvider E apiKey provider_name url formats).2 with
  | .ok _ => true
  | .error _ => false

/-- The `for provider_name, url in websites.items():` loop at lines 87–136,
threading the store, the `successful_scrapes` list and the event trace. -/
def scrapeLoop (E : ScrapeEnv) (apiKey : String) (formats : List String) :
    List (String × String) → Store → List String → List Event →
    Store × List String × List Event
  | [], store, succ, evts => (store, succ, evts)
  | (provider_name, url) :: rest, store, succ, evts =>
      match tryScrapeProvider E apiKey provider_name url formats with
      | (pEvts, .ok record) =>
          scrapeLoop E apiKey formats rest
            (dictInsert store provider_name record)
            (succ ++ [provider_name]) (evts ++ pEvts)
      | (pEvts, .error e) =>
          scrapeLoop E apiKey formats rest
            (dictInsert store provider_name (failureRecord E provider_name url formats e))
            succ (evts ++ pEvts)

/-- The tool `scrape_websites(websites, formats, api_key)` (lines 27–144).
`websites` is the dict of provider name → URL in iteration order; `initStore`
is the prior metadata parsed at lines 78–82 (`{}` when the file is absent).
Returns the event trace and either the raised exception (only the
missing-credential `ValueError` escapes) or the `successful_scrapes` list
together with the store as it is written back at lines 140–141. -/
def scrape_websites (E : ScrapeEnv) (websites : List (String × String))
    (formats : List String) (api_key : Option String) (initStore : Store) :
    List Event × Except PyError (List String × Store) :=
  let resolved : Except PyError String :=
    match api_key with
    | some k => .ok k
    | none =>
        match E.getenv "FIRECRAWL_API_KEY" with
        | some v =>
            if v = "" then
              .error (.valueError "API key must be provided or set as FIRECRAWL_API_KEY environment variable")
            else .ok v
        | none =>
            .error (.valueError "API key must be provided or set as FIRECRAWL_API_KEY environment variable")
  match resolved with
  | .error e => ([], .error e)
  | .ok apiKey =>
      let result := scrapeLoop E apiKey formats websites initStore [] [.makedirs SCRAPE_DIR]
      (result.2.2 ++ [.writeStore metadataFile result.1], .ok (result.2.1, result.1))

/-- State of the metadata store on disk, as `extract_scraped_info` finds it:
`noDir` — `SCRAPE_DIR` itself is missing (so the store file cannot exist);
`noFile` — the directory exists but `scraped_metadata.json` does not;
`corrupt` — the file exists but `json.load` fails;
`parsed s` — the file parses to the store `s`. -/
inductive MetaState where
  | noDir
  | noFile
  | corrupt
  | parsed (s : Store)

/-- The disk as the lookup tool sees it: the metadata-store state plus the
content files (`none` models a file that is missing or unreadable). -/
structure Disk where
  meta : MetaState
  files : String → Option String

/-- The not-found message at lines 185 and 198 (both occurrences are the
same f-string). -/
def notFoundMsg (identifier : String) : String :=
  "There\x27s no saved information related to identifier \x27" ++ identifier ++ "\x27."

/-- Result of a lookup that did not raise: either the not-found message or
the JSON payload — `none` for the empty `{}` result (no `content` section),
`some m` for a result whose `content` maps each format to its file text. -/
inductive LookupResult where
  | notFound (msg : String)
  | payload (content : Option (List (String × String)))
  deriving Repr, DecidableEq

/-- Lines 178–182: linear search over `scraped_metadata.items()`; first record
whose provider name, `url` or `domain` equals the identifier. -/
def findMatch (store : Store) (identifier : String) : Option ScrapeRecord :=
  match store with
  | [] => none
  | (provider_name, data) :: rest =>
      if identifier = provider_name ∨ identifier = data.url ∨ identifier = data.domain then
        some data
      else findMatch rest identifier

/-- Lines 190–198: read every file referenced by `content_files`, building the
`content` dict; the first unreadable file aborts with `none`. -/
def readContents (files : String → Option String) :
    List (String × String) → List (String × String) → Option (List (String × String))
  | [], acc => some acc
  | (fmt, filename) :: rest, acc =>
      match files (joinPath SCRAPE_DIR filename) with
      | some content => readContents files rest (dictInsert acc fmt content)
      | none => none

/-- The tool `extract_scraped_info(identifier)` (lines 147–200).  Raises
`FileNotFoundError` when the directory is missing (the `os.listdir` at line
159) or when the metadata file is missing (line 169), `ValueError` when the
file cannot be parsed (line 175); otherwise returns the not-found message or
the payload. -/
def extract_scraped_info (disk : Disk) (identifier : String) :
    Except PyError LookupResult :=
  match disk.meta with
  | .noDir => .error (.fileNotFoundError ("No such file or directory: " ++ SCRAPE_DIR))
  | .noFile => .error (.fileNotFoundError ("Metadata file not found at " ++ metadataFile))
  | .corrupt => .error (.valueError "Error decoding JSON from metadata file: invalid JSON")
  | .parsed store =>
      match findMatch store identifier with
      | none => .ok (.notFound (notFoundMsg identifier))
      | some matched_entry =>
          if matched_entry.hasContentFiles then
            match readContents disk.files matched_entry.contentFiles [] with
            | some content => .ok (.payload (some content))
            | none => .ok (.notFound (notFoundMsg identifier))
          else .ok (.payload none)

/-- Replay the file-system effect of an event: content-file writes create or
overwrite a file; no event ever deletes a file. -/
def applyEvent (fs : String → Option String) : Event → (String → Option String)
  | .writeContent path content => fun q => if q = path then some content else fs q
  | _ => fs

/-- Replay a trace of events over a file system, left to right. -/
def applyEvents (fs : String → Option String) (evts : List Event) :
    String → Option String :=
  evts.foldl applyEvent fs

/-- The read `scrape_result.get(fmt, None)` viewed as a total function: the content the
response carries for a format (`null` when absent or when the response is not
an object — in the latter case the real `.get` raises, which `writeFormats`
models separately). -/
def jContent (j : Json) (fmt : String) : Json :=
  match j with
  | .obj fields => (alistGet fields fmt).getD .null
  | _ => .null

/-- The string inside a `Json.str`, with `""` for every other shape. -/
def jStr : Json → String
  | .str s => s
  | _ => ""

/-- The events of a whole batch: the collaborator call of each provider followed by
its completed content-file writes, in batch order. -/
def batchEvents (E : ScrapeEnv) (apiKey : String) (formats : List String) :
    List (String × String) → List Event
  | [] => []
  | (provider_name, url) :: rest =>
      (tryScrapeProvider E apiKey provider_name url formats).1 ++
        batchEvents E apiKey formats rest

/-- The lookup as the spec words it (for the refinement part of the lookup
claim): "linear search over all records; returns the first whose provider
name equals, or whose `url` equals, or whose `domain` equals the identifier". -/
def findSpec (store : Store) (identifier : String) : Option ScrapeRecord :=
  (store.find? (fun pr =>
    identifier == pr.1 || identifier == pr.2.url || identifier == pr.2.domain)).map Prod.snd

/-- The content payload of a lookup outcome: `some c` when the lookup
returned a payload, `none` when it raised or answered with the not-found
message (whose text echoes the identifier and so differs across identifiers
even for the same record). -/
def lookupContent : Except PyError LookupResult → Option (Option (List (String × String)))
  | .ok (.payload c) => some c
  | _ => none

/-! ### Concrete fixtures used to instantiate the theorems -/

/-- Fixture: a successful collaborator response carrying markdown and html
content, status 200, and a nested metadata object with title and description. -/
def wResp : Json :=
  .obj [("markdown", .str "MD"), ("html", .str "HTML"),
        ("metadata", .obj [("status_code", .num 200),
          ("metadata", .obj [("title", .str "T"), ("description", .str "D")])])]

/-- Fixture: an environment whose collaborator fails for one URL and returns
`wResp` for every other, with no credential in the environment. -/
def wEnv : ScrapeEnv :=
  { scrapeFn := fun _ url _ =>
      if url = "https://bad.example.com/x" then .error (.collaboratorError "boom")
      else .ok wResp
    getenv := fun _ => none
    now := "2026-01-01T00:00:00" }

/-- Fixture: a three-provider batch where the collaborator call of the middle provider fails. -/
def wBatch : List (String × String) :=
  [("a", "https://a.example.com/p"), ("bad", "https://bad.example.com/x"),
   ("c", "https://c.example.com/q")]

/-- Fixture: a prior record for provider "a" with a different format set,
used as pre-existing store content. -/
def wOldRec : ScrapeRecord :=
  { provider_name := "a", url := "https://old.example.com/z", domain := "old.example.com",
    scraped_at := "2025-01-01T00:00:00", formats := ["pdf"],
    outcome := .success [("pdf", "a_pdf.txt")] (.str "Old") (.str "OldDesc") }

/-- Fixture: the events of the successful scrape of provider "a" under `wEnv`. -/
def wEvtsA : List Event :=
  [.scrapeCall "KEY" "https://a.example.com/p" ["markdown", "html"],
   .writeContent "scraped_content/a_markdown.txt" "MD",
   .writeContent "scraped_content/a_html.txt" "HTML"]

/-- Fixture: the record the scrape of provider "a" under `wEnv` builds. -/
def wRecA : ScrapeRecord :=
  { provider_name := "a", url := "https://a.example.com/p", domain := "a.example.com",
    scraped_at := "2026-01-01T00:00:00", formats := ["markdown", "html"],
    outcome := .success [("markdown", "a_markdown.txt"), ("html", "a_html.txt")]
      (.str "T") (.str "D") }

/-- Fixture: a response whose metadata object carries `title`/`description`
directly, with no nested `metadata` key. -/
def w9resp : Json :=
  .obj [("markdown", .str "MD"),
        ("metadata", .obj [("status_code", .num 200), ("title", .str "Direct Title"),
          ("description", .str "Direct Desc")])]

/-- Fixture: an environment that always answers with `w9resp`. -/
def w9env : ScrapeEnv :=
  { scrapeFn := fun _ _ _ => .ok w9resp
    getenv := fun _ => none
    now := "t9" }

/-- Fixture: the fields of the metadata object of `w9resp`. -/
def w9mfs : List (String × Json) :=
  [("status_code", .num 200), ("title", .str "Direct Title"),
   ("description", .str "Direct Desc")]

/-- Fixture: the events of scraping provider "p" under `w9env`. -/
def w9evts : List Event :=
  [.scrapeCall "K" "https://p.example.com/" ["markdown"],
   .writeContent "scraped_content/p_markdown.txt" "MD"]

/-- Fixture: the record scraping provider "p" under `w9env` builds: empty
title and description even though the response carries them directly. -/
def w9rec : ScrapeRecord :=
  { provider_name := "p", url := "https://p.example.com/", domain := "p.example.com",
    scraped_at := "t9", formats := ["markdown"],
    outcome := .success [("markdown", "p_markdown.txt")] (.str "") (.str "") }

/-- Fixture: stored record "a" sharing its domain with record "b". -/
def cexA : ScrapeRecord :=
  { provider_name := "a", url := "https://x.example.com/a", domain := "x.example.com",
    scraped_at := "t", formats := ["markdown"],
    outcome := .success [("markdown", "a_markdown.txt")] (.str "") (.str "") }

/-- Fixture: stored record "b" sharing its domain with record "a". -/
def cexB : ScrapeRecord :=
  { provider_name := "b", url := "https://x.example.com/b", domain := "x.example.com",
    scraped_at := "t", formats := ["markdown"],
    outcome := .success [("markdown", "b_markdown.txt")] (.str "") (.str "") }

/-- Fixture: a store holding `cexA` before `cexB`. -/
def cexStore : Store := [("a", cexA), ("b", cexB)]

/-- Fixture: a disk where the content files of both records are readable and distinct. -/
def cexDisk : Disk :=
  { meta := .parsed cexStore
    files := fun p =>
      if p = "scraped_content/a_markdown.txt" then some "A-CONTENT"
      else if p = "scraped_content/b_markdown.txt" then some "B-CONTENT"
      else none }

/-- Fixture: a stored record referencing one content file. -/
def w6rec : ScrapeRecord :=
  { provider_name := "acme", url := "https://acme.example.com/page",
    domain := "acme.example.com", scraped_at := "t", formats := ["markdown"],
    outcome := .success [("markdown", "acme_markdown.txt")] (.str "") (.str "") }

/-- Fixture: a disk holding `w6rec`, whose referenced content file has been
deleted externally (every file read fails). -/
def w6disk : Disk :=
  { meta := .parsed [("acme", w6rec)]
    files := fun _ => none }

/-- Fixture: a disk on which the output directory has never been created. -/
def w5disk : Disk :=
  { meta := .noDir
    files := fun _ => none }

/-- Fixture: a disk holding only `w6rec`, with its content file readable. -/
def w3disk : Disk :=
  { meta := .parsed [("acme", w6rec)]
    files := fun p =>
      if p = "scraped_content/acme_markdown.txt" then some "ACME-CONTENT" else none }

/-! ### Association-list lemmas (Python dict semantics) -/

theorem alistGet_dictInsert_self {α : Type} (d : List (String × α)) (k : String) (v : α) :
    alistGet (dictInsert d k v) k = some v := by
  induction d with
  | nil => simp [dictInsert, alistGet]
  | cons p rest ih =>
      by_cases hk : p.1 = k
      · simp [dictInsert, hk, alistGet]
      · simp only [dictInsert, if_neg hk, alistGet]
        exact ih

theorem alistGet_dictInsert_ne {α : Type} (d : List (String × α)) (k p : String) (v : α)
    (h : p ≠ k) : alistGet (dictInsert d k v) p = alistGet d p := by
  induction d with
  | nil => simp [dictInsert, alistGet, if_neg (fun hh : k = p => h hh.symm)]
  | cons q rest ih =>
      by_cases hk : q.1 = k
      · simp only [dictInsert, if_pos hk, alistGet]
        rw [if_neg (fun hh : k = p => h hh.symm), if_neg (fun hh : q.1 = p => h (hk ▸ hh).symm)]
      · simp only [dictInsert, if_neg hk, alistGet]
        by_cases hq : q.1 = p
        · rw [if_pos hq, if_pos hq]
        · rw [if_neg hq, if_neg hq]
          exact ih

theorem keys_dictInsert {α : Type} (d : List (String × α)) (k : String) (v : α) :
    (dictInsert d k v).map Prod.fst =
      if d.any (fun p => p.1 = k) then d.map Prod.fst else d.map Prod.fst ++ [k] := by
  induction d with
  | nil => simp [dictInsert]
  | cons p rest ih =>
      by_cases hk : p.1 = k
      · simp [dictInsert, hk]
      · simp only [dictInsert, if_neg hk, List.map_cons, List.any_cons, ih]
        by_cases hmem : rest.any (fun q => q.1 = k) = true
        · simp [hmem, hk]
        · simp only [Bool.not_eq_true] at hmem
          simp [hmem, hk]

theorem keys_nodup_dictInsert {α : Type} (d : List (String × α)) (k : String) (v : α)
    (h : (d.map Prod.fst).Nodup) : ((dictInsert d k v).map Prod.fst).Nodup := by
  rw [keys_dictInsert]
  by_cases hmem : d.any (fun p => p.1 = k) = true
  · rw [if_pos hmem]; exact h
  · rw [if_neg hmem]
    simp only [Bool.not_eq_true, List.any_eq_false] at hmem
    refine List.Nodup.append h (List.nodup_singleton k) ?_
    intro a ha hb
    simp only [List.mem_singleton] at hb
    subst hb
    simp only [List.mem_map] at ha
    obtain ⟨p, hp, hpk⟩ := ha
    exact absurd (by simpa using hpk) (by simpa using hmem p hp)

/-! ### Lemmas about the per-format write loop -/

theorem writeFormats_events_shape (p : String) (j : Json) :
    ∀ (fmts : List String) (cf : List (String × String)) (evts : List Event),
      ∀ e ∈ (writeFormats p j fmts cf evts).1,
        e ∈ evts ∨ ∃ path c, e = Event.writeContent path c := by
  intro fmts
  induction fmts with
  | nil => intro cf evts e he; exact Or.inl he
  | cons f₀ rest ih =>
      intro cf evts e he
      rw [writeFormats] at he
      split at he
      · exact Or.inl he
      · split at he
        · split at he
          · rcases ih _ _ e he with hmem | hw
            · rcases List.mem_append.mp hmem with hmem₁ | hmem₂
              · exact Or.inl hmem₁
              · simp only [List.mem_singleton] at hmem₂
                exact Or.inr ⟨_, _, hmem₂⟩
            · exact Or.inr hw
          · exact Or.inl he
        · exact ih _ _ e he

theorem dictGet_ok_eq (j : Json) (k : String) (c : Json)
    (h : j.dictGet k .null = .ok c) : jContent j k = c := by
  cases j with
  | obj fields =>
      simp only [Json.dictGet, Except.ok.injEq] at h
      simpa [jContent] using h
  | null => simp [Json.dictGet] at h
  | bool b => simp [Json.dictGet] at h
  | num n => simp [Json.dictGet] at h
  | str s => simp [Json.dictGet] at h
  | arr elems => simp [Json.dictGet] at h

theorem writeFormats_ok_get (p : String) (j : Json) :
    ∀ (fmts : List String) (cf : List (String × String)) (evts evts₂ : List Event)
      (cf₂ : List (String × String)),
      writeFormats p j fmts cf evts = (evts₂, .ok cf₂) →
      ∀ fmt, alistGet cf₂ fmt =
        if fmt ∈ fmts ∧ (jContent j fmt).truthy = true
        then some (p ++ "_" ++ fmt ++ ".txt")
        else alistGet cf fmt := by
  intro fmts
  induction fmts with
  | nil =>
      intro cf evts evts₂ cf₂ h fmt
      rw [writeFormats] at h
      injection h with h₁ h₂
      injection h₂ with h₃
      subst h₃
      simp
  | cons f₀ rest ih =>
      intro cf evts evts₂ cf₂ h fmt
      rw [writeFormats] at h
      split at h
      · simp at h
      next content hg =>
        have hcontent : jContent j f₀ = content := dictGet_ok_eq j f₀ content hg
        split at h
        next ht =>
          split at h
          next s hs =>
            have hrec := ih _ _ _ _ h fmt
            rw [hrec]
            by_cases hf : fmt = f₀
            · subst hf
              have httr : (jContent j fmt).truthy = true := by rw [hcontent]; exact ht
              by_cases hr : fmt ∈ rest
              · rw [if_pos ⟨hr, httr⟩, if_pos ⟨List.mem_cons_self _ _, httr⟩]
              · rw [if_neg (fun hh => hr hh.1), alistGet_dictInsert_self,
                  if_pos ⟨List.mem_cons_self _ _, httr⟩]
            · rw [alistGet_dictInsert_ne _ _ _ _ hf]
              by_cases hr : fmt ∈ rest ∧ (jContent j fmt).truthy = true
              · rw [if_pos hr, if_pos ⟨List.mem_cons_of_mem _ hr.1, hr.2⟩]
              · rw [if_neg hr, if_neg
                  (fun hh => hr ⟨(List.mem_cons.mp hh.1).resolve_left hf, hh.2⟩)]
          next => simp at h
        next ht =>
          have hrec := ih _ _ _ _ h fmt
          rw [hrec]
          by_cases hr : fmt ∈ rest ∧ (jContent j fmt).truthy = true
          · rw [if_pos hr, if_pos ⟨List.mem_cons_of_mem _ hr.1, hr.2⟩]
          · rw [if_neg hr, if_neg]
            intro hh
            rcases List.mem_cons.mp hh.1 with rfl | hmem₂
            · rw [hcontent] at hh; exact ht hh.2
            · exact hr ⟨hmem₂, hh.2⟩

theorem writeFormats_ok_events (p : String) (j : Json) :
    ∀ (fmts : List String) (cf : List (String × String)) (evts evts₂ : List Event)
      (cf₂ : List (String × String)),
      writeFormats p j fmts cf evts = (evts₂, .ok cf₂) →
      evts₂ = evts ++ (fmts.filter (fun f => (jContent j f).truthy)).map
        (fun f => Event.writeContent (joinPath SCRAPE_DIR (p ++ "_" ++ f ++ ".txt"))
          (jStr (jContent j f))) := by
  intro fmts
  induction fmts with
  | nil =>
      intro cf evts evts₂ cf₂ h
      rw [writeFormats] at h
      injection h with h₁ h₂
      subst h₁
      simp
  | cons f₀ rest ih =>
      intro cf evts evts₂ cf₂ h
      rw [writeFormats] at h
      split at h
      · simp at h
      next content hg =>
        have hcontent : jContent j f₀ = content := dictGet_ok_eq j f₀ content hg
        split at h
        next ht =>
          split at h
          next s hs =>
            have hrec := ih _ _ _ _ h
            rw [hrec, List.filter_cons_of_pos (by rw [hcontent]; exact ht),
              List.map_cons, List.append_assoc, hcontent]
            rfl
          next => simp at h
        next ht =>
          have hrec := ih _ _ _ _ h
          rw [hrec, List.filter_cons_of_neg]
          rw [hcontent]
          simpa using ht

/-! ### Lemmas about the batch loop -/

theorem tryScrapeProvider_events_shape (E : ScrapeEnv) (apiKey p u : String)
    (fmts : List String) :
    ∀ e ∈ (tryScrapeProvider E apiKey p u fmts).1,
      e = Event.scrapeCall apiKey u fmts ∨ ∃ path c, e = Event.writeContent path c := by
  intro e he
  rw [tryScrapeProvider] at he
  split at he
  · simp only [List.mem_singleton] at he; exact Or.inl he
  · split at he
    · simp only [List.mem_singleton] at he; exact Or.inl he
    · split at he
      · simp only [List.mem_singleton] at he; exact Or.inl he
      · split at he
        next wEvts err hw =>
            rcases List.mem_append.mp he with h₁ | h₂
            · simp only [List.mem_singleton] at h₁; exact Or.inl h₁
            · have := writeFormats_events_shape p _ fmts [] [] e (by rw [hw]; exact h₂)
              rcases this with hmem | hok
              · simp at hmem
              · exact Or.inr hok
        next wEvts cf hw =>
            split at he
            · rcases List.mem_append.mp he with h₁ | h₂
              · simp only [List.mem_singleton] at h₁; exact Or.inl h₁
              · have := writeFormats_events_shape p _ fmts [] [] e (by rw [hw]; exact h₂)
                rcases this with hmem | hok
                · simp at hmem
                · exact Or.inr hok
            · rcases List.mem_append.mp he with h₁ | h₂
              · simp only [List.mem_singleton] at h₁; exact Or.inl h₁
              · have := writeFormats_events_shape p _ fmts [] [] e (by rw [hw]; exact h₂)
                rcases this with hmem | hok
                · simp at hmem
                · exact Or.inr hok

theorem scrapeLoop_events (E : ScrapeEnv) (apiKey : String) (fmts : List String) :
    ∀ (ws : List (String × String)) (store : Store) (succ : List String)
      (evts : List Event),
      (scrapeLoop E apiKey fmts ws store succ evts).2.2 =
        evts ++ batchEvents E apiKey fmts ws := by
  intro ws
  induction ws with
  | nil => intro store succ evts; simp [scrapeLoop, batchEvents]
  | cons pu rest ih =>
      intro store succ evts
      obtain ⟨p, u⟩ := pu
      rw [scrapeLoop]
      cases htry : tryScrapeProvider E apiKey p u fmts with
      | mk pEvts res =>
          cases res with
          | ok record =>
              rw [ih]
              simp [batchEvents, htry, List.append_assoc]
          | error err =>
              rw [ih]
              simp [batchEvents, htry, List.append_assoc]

theorem scrapeLoop_succ (E : ScrapeEnv) (apiKey : String) (fmts : List String) :
    ∀ (ws : List (String × String)) (store : Store) (succ : List String)
      (evts : List Event),
      (scrapeLoop E apiKey fmts ws store succ evts).2.1 =
        succ ++ (ws.filter (fun pu => providerSucceeds E apiKey pu.1 pu.2 fmts)).map
          Prod.fst := by
  intro ws
  induction ws with
  | nil => intro store succ evts; simp [scrapeLoop]
  | cons pu rest ih =>
      intro store succ evts
      obtain ⟨p, u⟩ := pu
      rw [scrapeLoop]
      cases htry : tryScrapeProvider E apiKey p u fmts with
      | mk pEvts res =>
          cases res with
          | ok record =>
              have hs : providerSucceeds E apiKey p u fmts = true := by
                rw [providerSucceeds, htry]
              rw [ih]
              rw [List.filter_cons_of_pos (by simpa using hs)]
              simp [List.append_assoc]
          | error err =>
              have hs : providerSucceeds E apiKey p u fmts = false := by
                rw [providerSucceeds, htry]
              rw [ih]
              rw [List.filter_cons_of_neg (by simpa using hs)]

theorem scrapeLoop_store_stable (E : ScrapeEnv) (apiKey : String) (fmts : List String) :
    ∀ (ws : List (String × String)) (store : Store) (succ : List String)
      (evts : List Event) (p : String), p ∉ ws.map Prod.fst →
      alistGet (scrapeLoop E apiKey fmts ws store succ evts).1 p = alistGet store p := by
  intro ws
  induction ws with
  | nil => intro store succ evts p hp; rfl
  | cons pu rest ih =>
      intro store succ evts p hp
      obtain ⟨q, u⟩ := pu
      simp only [List.map_cons, List.mem_cons, not_or] at hp
      rw [scrapeLoop]
      cases htry : tryScrapeProvider E apiKey q u fmts with
      | mk pEvts res =>
          cases res with
          | ok record =>
              rw [ih _ _ _ _ (by simpa using hp.2), alistGet_dictInsert_ne _ _ _ _ hp.1]
          | error err =>
              rw [ih _ _ _ _ (by simpa using hp.2), alistGet_dictInsert_ne _ _ _ _ hp.1]

theorem scrapeLoop_store_get (E : ScrapeEnv) (apiKey : String) (fmts : List String) :
    ∀ (ws : List (String × String)) (store : Store) (succ : List String)
      (evts : List Event) (p u : String), (p, u) ∈ ws → (ws.map Prod.fst).Nodup →
      alistGet (scrapeLoop E apiKey fmts ws store succ evts).1 p =
        some (providerRecord E apiKey p u fmts) := by
  intro ws
  induction ws with
  | nil => intro store succ evts p u hmem; simp at hmem
  | cons pu rest ih =>
      intro store succ evts p u hmem hnd
      obtain ⟨q, w⟩ := pu
      simp only [List.map_cons, List.nodup_cons] at hnd
      rcases List.mem_cons.mp hmem with heq | hmem₂
      · injection heq with h₁ h₂
        subst h₁; subst h₂
        rw [scrapeLoop]
        cases htry : tryScrapeProvider E apiKey p u fmts with
        | mk pEvts res =>
            cases res with
            | ok record =>
                rw [scrapeLoop_store_stable _ _ _ _ _ _ _ _ hnd.1,
                  alistGet_dictInsert_self, providerRecord, htry]
            | error err =>
                rw [scrapeLoop_store_stable _ _ _ _ _ _ _ _ hnd.1,
                  alistGet_dictInsert_self, providerRecord, htry]
      · rw [scrapeLoop]
        cases htry : tryScrapeProvider E apiKey q w fmts with
        | mk pEvts res =>
            cases res with
            | ok record => exact ih _ _ _ _ _ hmem₂ hnd.2
            | error err => exact ih _ _ _ _ _ hmem₂ hnd.2

theorem scrapeLoop_store_keys_nodup (E : ScrapeEnv) (apiKey : String)
    (fmts : List String) :
    ∀ (ws : List (String × String)) (store : Store) (succ : List String)
      (evts : List Event), (store.map Prod.fst).Nodup →
      ((scrapeLoop E apiKey fmts ws store succ evts).1.map Prod.fst).Nodup := by
  intro ws
  induction ws with
  | nil => intro store succ evts h; exact h
  | cons pu rest ih =>
      intro store succ evts h
      obtain ⟨q, u⟩ := pu
      rw [scrapeLoop]
      cases htry : tryScrapeProvider E apiKey q u fmts with
      | mk pEvts res =>
          cases res with
          | ok record => exact ih _ _ _ (keys_nodup_dictInsert _ _ _ h)
          | error err => exact ih _ _ _ (keys_nodup_dictInsert _ _ _ h)

theorem batchEvents_shape (E : ScrapeEnv) (apiKey : String) (fmts : List String) :
    ∀ (ws : List (String × String)), ∀ e ∈ batchEvents E apiKey fmts ws,
      (∃ u, e = Event.scrapeCall apiKey u fmts) ∨ ∃ path c, e = Event.writeContent path c := by
  intro ws
  induction ws with
  | nil => intro e he; simp [batchEvents] at he
  | cons pu rest ih =>
      intro e he
      obtain ⟨p, u⟩ := pu
      rw [batchEvents] at he
      rcases List.mem_append.mp he with h₁ | h₂
      · rcases tryScrapeProvider_events_shape E apiKey p u fmts e h₁ with hc | hw
        · exact Or.inl ⟨u, hc⟩
        · exact Or.inr hw
      · exact ih e h₂

/-! ### Lemmas about lookup and content reading -/

theorem readContents_none_of_missing (files : String → Option String) :
    ∀ (cf acc : List (String × String)),
      (∃ pr ∈ cf, files (joinPath SCRAPE_DIR pr.2) = none) →
      readContents files cf acc = none := by
  intro cf
  induction cf with
  | nil => intro acc h; simp at h
  | cons pr rest ih =>
      intro acc h
      obtain ⟨qr, hq, hqnone⟩ := h
      obtain ⟨f₀, fn₀⟩ := pr
      rw [readContents]
      rcases List.mem_cons.mp hq with rfl | hq₂
      · rw [hqnone]
      · cases hf : files (joinPath SCRAPE_DIR fn₀) with
        | none => rfl
        | some c => exact ih _ ⟨qr, hq₂, hqnone⟩

theorem readContents_acc_stable (files : String → Option String) :
    ∀ (cf acc content : List (String × String)) (k : String),
      k ∉ cf.map Prod.fst → readContents files cf acc = some content →
      alistGet content k = alistGet acc k := by
  intro cf
  induction cf with
  | nil =>
      intro acc content k hk h
      rw [readContents] at h
      injection h with h₁
      rw [h₁]
  | cons pr rest ih =>
      intro acc content k hk h
      obtain ⟨f₀, fn₀⟩ := pr
      simp only [List.map_cons, List.mem_cons, not_or] at hk
      rw [readContents] at h
      cases hf : files (joinPath SCRAPE_DIR fn₀) with
      | none => rw [hf] at h; exact absurd h (by simp)
      | some c =>
          rw [hf] at h
          rw [ih _ _ _ (by simpa using hk.2) h,
            alistGet_dictInsert_ne _ _ _ _ hk.1]

theorem readContents_some_covers (files : String → Option String) :
    ∀ (cf acc content : List (String × String)),
      (cf.map Prod.fst).Nodup → readContents files cf acc = some content →
      ∀ pr ∈ cf, ∃ c, files (joinPath SCRAPE_DIR pr.2) = some c ∧
        alistGet content pr.1 = some c := by
  intro cf
  induction cf with
  | nil => intro acc content hnd h pr hpr; simp at hpr
  | cons qr rest ih =>
      intro acc content hnd h pr hpr
      obtain ⟨f₀, fn₀⟩ := qr
      simp only [List.map_cons, List.nodup_cons] at hnd
      rw [readContents] at h
      cases hf : files (joinPath SCRAPE_DIR fn₀) with
      | none => rw [hf] at h; exact absurd h (by simp)
      | some c =>
          rw [hf] at h
          rcases List.mem_cons.mp hpr with rfl | hpr₂
          · refine ⟨c, hf, ?_⟩
            rw [readContents_acc_stable files rest _ _ _ hnd.1 h,
              alistGet_dictInsert_self]
          · exact ih _ _ hnd.2 h pr hpr₂

theorem findMatch_eq_findSpec : ∀ (store : Store) (identifier : String),
    findMatch store identifier = findSpec store identifier := by
  intro store identifier
  induction store with
  | nil => rfl
  | cons pr rest ih =>
      obtain ⟨q, r⟩ := pr
      rw [findMatch, findSpec, List.find?]
      by_cases hm : identifier = q ∨ identifier = r.url ∨ identifier = r.domain
      · rw [if_pos hm]
        have : (identifier == q || identifier == r.url || identifier == r.domain) = true := by
          rcases hm with h | h | h <;> simp [h]
        rw [this]
        rfl
      · rw [if_neg hm]
        have : (identifier == q || identifier == r.url || identifier == r.domain) = false := by
          push_neg at hm
          simp [hm.1, hm.2.1, hm.2.2]
        rw [this]
        exact ih

theorem applyEvents_isSome (evts : List Event) :
    ∀ (fs : String → Option String) (q : String),
      (fs q).isSome → ((applyEvents fs evts) q).isSome := by
  induction evts with
  | nil => intro fs q h; exact h
  | cons e rest ih =>
      intro fs q h
      rw [applyEvents, List.foldl_cons]
      refine ih (applyEvent fs e) q ?_
      cases e with
      | writeContent path c =>
          simp only [applyEvent]
          by_cases hq : q = path
          · rw [if_pos hq]; rfl
          · rw [if_neg hq]; exact h
      | makedirs path => exact h
      | scrapeCall k u f => exact h
      | writeStore path s => exact h

/-! ### Unfolding equations for `scrape_websites` -/

theorem scrape_websites_some (E : ScrapeEnv) (ws : List (String × String))
    (fmts : List String) (apiKey : String) (init : Store) :
    scrape_websites E ws fmts (some apiKey) init =
      ((scrapeLoop E apiKey fmts ws init [] [.makedirs SCRAPE_DIR]).2.2 ++
          [.writeStore metadataFile (scrapeLoop E apiKey fmts ws init [] [.makedirs SCRAPE_DIR]).1],
        .ok ((scrapeLoop E apiKey fmts ws init [] [.makedirs SCRAPE_DIR]).2.1,
          (scrapeLoop E apiKey fmts ws init [] [.makedirs SCRAPE_DIR]).1)) := rfl

theorem scrape_websites_env (E : ScrapeEnv) (ws : List (String × String))
    (fmts : List String) (init : Store) (v : String)
    (hv : E.getenv "FIRECRAWL_API_KEY" = some v) (hne : v ≠ "") :
    scrape_websites E ws fmts none init = scrape_websites E ws fmts (some v) init := by
  simp only [scrape_websites, hv]
  rw [if_neg hne]

theorem scrape_websites_missing_key (E : ScrapeEnv) (ws : List (String × String))
    (fmts : List String) (init : Store)
    (h : E.getenv "FIRECRAWL_API_KEY" = none ∨ E.getenv "FIRECRAWL_API_KEY" = some "") :
    scrape_websites E ws fmts none init =
      ([], .error (.valueError
        "API key must be provided or set as FIRECRAWL_API_KEY environment variable")) := by
  rcases h with h | h
  · rw [scrape_websites, h]
  · rw [scrape_websites, h]
    rfl

theorem scrapeLoop_getenv (E : ScrapeEnv) (g : String → Option String)
    (apiKey : String) (fmts : List String) :
    ∀ (ws : List (String × String)) (store : Store) (succ : List String)
      (evts : List Event),
      scrapeLoop { scrapeFn := E.scrapeFn, getenv := g, now := E.now } apiKey fmts
          ws store succ evts =
        scrapeLoop E apiKey fmts ws store succ evts := by
  intro ws
  induction ws with
  | nil => intro store succ evts; rfl
  | cons pu rest ih =>
      intro store succ evts
      obtain ⟨p, u⟩ := pu
      rw [scrapeLoop, scrapeLoop]
      have htry : tryScrapeProvider { scrapeFn := E.scrapeFn, getenv := g, now := E.now }
          apiKey p u fmts = tryScrapeProvider E apiKey p u fmts := rfl
      rw [htry]
      cases h : tryScrapeProvider E apiKey p u fmts with
      | mk pEvts res =>
          cases res with
          | ok record => exact ih _ _ _
          | error err => exact ih _ _ _

/-! ### The claims -/

/-- C1: for every batch, any exception raised while processing one provider
(collaborator failure, non-200 status, or any other error in the `try:` body
of that provider) is absorbed at the scope of that provider: the call always returns
normally, the returned list is exactly the providers whose scrape succeeded
(in batch order), every input provider ends up with a record in the store,
and the record of a failed provider is the failure variant. -/
theorem claim_C1 (E : ScrapeEnv) (websites : List (String × String))
    (formats : List String) (apiKey : String) (initStore : Store)
    (hkeys : (websites.map Prod.fst).Nodup) :
    ∃ evts succ store,
      scrape_websites E websites formats (some apiKey) initStore =
        (evts, .ok (succ, store)) ∧
      succ = (websites.filter
        (fun pu => providerSucceeds E apiKey pu.1 pu.2 formats)).map Prod.fst ∧
      (∀ pu ∈ websites,
        alistGet store pu.1 = some (providerRecord E apiKey pu.1 pu.2 formats)) ∧
      (∀ pu ∈ websites, providerSucceeds E apiKey pu.1 pu.2 formats = false →
        ∃ msg, (providerRecord E apiKey pu.1 pu.2 formats).outcome = .failure msg) := by
  refine ⟨_, _, _, scrape_websites_some E websites formats apiKey initStore, ?_, ?_, ?_⟩
  · rw [scrapeLoop_succ]
    simp
  · intro pu hmem
    exact scrapeLoop_store_get E apiKey formats websites initStore [] _ pu.1 pu.2
      (by simpa using hmem) hkeys
  · intro pu hmem hfail
    rw [providerSucceeds] at hfail
    rw [providerRecord]
    cases htry : (tryScrapeProvider E apiKey pu.1 pu.2 formats).2 with
    | ok r => rw [htry] at hfail; simp at hfail
    | error e => exact ⟨errString e, rfl⟩

/-- Witness for C1: the three-provider batch `wBatch` whose middle provider
fails; the hypothesis (distinct provider names) holds and the conclusion
follows by applying `claim_C1`. -/
theorem claim_C1_witness :
    (wBatch.map Prod.fst).Nodup ∧
    (∃ evts succ store,
      scrape_websites wEnv wBatch ["markdown", "html"] (some "KEY") [] =
        (evts, .ok (succ, store)) ∧
      succ = (wBatch.filter
        (fun pu => providerSucceeds wEnv "KEY" pu.1 pu.2 ["markdown", "html"])).map Prod.fst ∧
      (∀ pu ∈ wBatch,
        alistGet store pu.1 = some (providerRecord wEnv "KEY" pu.1 pu.2 ["markdown", "html"])) ∧
      (∀ pu ∈ wBatch, providerSucceeds wEnv "KEY" pu.1 pu.2 ["markdown", "html"] = false →
        ∃ msg, (providerRecord wEnv "KEY" pu.1 pu.2 ["markdown", "html"]).outcome =
          .failure msg)) :=
  ⟨by decide, claim_C1 wEnv wBatch ["markdown", "html"] "KEY" [] (by decide)⟩

/-- C2: the store never holds two records under one provider name (the
no-duplicate-keys invariant is preserved), a new scrape of a provider stores
a record fully determined by the new attempt — `providerRecord` does not
depend on the prior store, so the old record is overwritten, not merged —
and no event of the batch ever deletes an existing content file. -/
theorem claim_C2 (E : ScrapeEnv) (websites : List (String × String))
    (formats : List String) (apiKey : String) (initStore : Store)
    (p u : String) (hkeys : (websites.map Prod.fst).Nodup)
    (hmem : (p, u) ∈ websites) :
    ∃ evts succ store,
      scrape_websites E websites formats (some apiKey) initStore =
        (evts, .ok (succ, store)) ∧
      ((initStore.map Prod.fst).Nodup → (store.map Prod.fst).Nodup) ∧
      alistGet store p = some (providerRecord E apiKey p u formats) ∧
      (∀ (fs : String → Option String) (path : String),
        (fs path).isSome = true → ((applyEvents fs evts) path).isSome = true) := by
  refine ⟨_, _, _, scrape_websites_some E websites formats apiKey initStore, ?_, ?_, ?_⟩
  · intro hinitial
    exact scrapeLoop_store_keys_nodup E apiKey formats websites initStore [] _ hinitial
  · exact scrapeLoop_store_get E apiKey formats websites initStore [] _ p u hmem hkeys
  · intro fs path h
    exact applyEvents_isSome _ fs path h

/-- Witness for C2: scraping `wBatch` over a store already holding a prior
record for provider "a" with a different format set. -/
theorem claim_C2_witness :
    ((wBatch.map Prod.fst).Nodup ∧ ("a", "https://a.example.com/p") ∈ wBatch) ∧
    (∃ evts succ store,
      scrape_websites wEnv wBatch ["markdown", "html"] (some "KEY") [("a", wOldRec)] =
        (evts, .ok (succ, store)) ∧
      (([("a", wOldRec)].map Prod.fst).Nodup → (store.map Prod.fst).Nodup) ∧
      alistGet store "a" =
        some (providerRecord wEnv "KEY" "a" "https://a.example.com/p" ["markdown", "html"]) ∧
      (∀ (fs : String → Option String) (path : String),
        (fs path).isSome = true → ((applyEvents fs evts) path).isSome = true)) :=
  ⟨⟨by decide, by decide⟩,
    claim_C2 wEnv wBatch ["markdown", "html"] "KEY" [("a", wOldRec)]
      "a" "https://a.example.com/p" (by decide) (by decide)⟩

/-- C7: on every (credential-resolved) scrape invocation the metadata store
file is written exactly once, as the final event of the trace, carrying the
final store: every earlier event is not a store write, so a crash before the
end leaves the previously persisted store untouched. -/
theorem claim_C7 (E : ScrapeEnv) (websites : List (String × String))
    (formats : List String) (apiKey : String) (initStore : Store) :
    ∃ evtsPre succ store,
      scrape_websites E websites formats (some apiKey) initStore =
        (evtsPre ++ [Event.writeStore metadataFile store], .ok (succ, store)) ∧
      ∀ e ∈ evtsPre, e.isWriteStore = false := by
  refine ⟨_, _, _, scrape_websites_some E websites formats apiKey initStore, ?_⟩
  intro e he
  rw [scrapeLoop_events] at he
  rcases List.mem_append.mp he with h₁ | h₂
  · simp only [List.mem_singleton] at h₁
    rw [h₁]
    rfl
  · rcases batchEvents_shape E apiKey formats websites e h₂ with ⟨uu, hc⟩ | ⟨path, c, hw⟩
    · rw [hc]; rfl
    · rw [hw]; rfl

/-- Witness for C7: the batch `wBatch` under `wEnv`; the store write is the
unique final event of the concrete trace. -/
theorem claim_C7_witness :
    ∃ evtsPre succ store,
      scrape_websites wEnv wBatch ["markdown", "html"] (some "KEY") [] =
        (evtsPre ++ [Event.writeStore metadataFile store], .ok (succ, store)) ∧
      ∀ e ∈ evtsPre, e.isWriteStore = false :=
  claim_C7 wEnv wBatch ["markdown", "html"] "KEY" []

/-- C8: with no credential argument, the credential is read from the
`FIRECRAWL_API_KEY` environment variable; when the environment yields a
usable value the call behaves exactly as if that value had been passed, and
when it yields nothing (or the empty string) the call fails with the
missing-credential `ValueError` with an empty event trace — before any
scrape attempt, file write, or store write. -/
theorem claim_C8 (E : ScrapeEnv) (websites : List (String × String))
    (formats : List String) (initStore : Store) :
    (∀ v, E.getenv "FIRECRAWL_API_KEY" = some v → v ≠ "" →
      scrape_websites E websites formats none initStore =
        scrape_websites E websites formats (some v) initStore) ∧
    ((E.getenv "FIRECRAWL_API_KEY" = none ∨ E.getenv "FIRECRAWL_API_KEY" = some "") →
      scrape_websites E websites formats none initStore =
        ([], .error (.valueError
          "API key must be provided or set as FIRECRAWL_API_KEY environment variable"))) := by
  constructor
  · intro v hv hne
    exact scrape_websites_env E websites formats initStore v hv hne
  · intro h
    exact scrape_websites_missing_key E websites formats initStore h

/-- Witness for C8: under `wEnv` (no credential in the environment) the call
without an API-key argument fails with the missing-credential error and an
empty event trace. -/
theorem claim_C8_witness :
    scrape_websites wEnv wBatch ["markdown", "html"] none [] =
      ([], .error (.valueError
        "API key must be provided or set as FIRECRAWL_API_KEY environment variable")) :=
  (claim_C8 wEnv wBatch ["markdown", "html"] []).2 (Or.inl rfl)

/-- C10: with any non-`None` credential argument — the empty string included —
the call never raises the missing-credential error, every collaborator call
receives exactly the given credential, and the result does not depend on the
environment-variable source at all. -/
theorem claim_C10 (E : ScrapeEnv) (websites : List (String × String))
    (formats : List String) (initStore : Store) (apiKey : String) :
    ∃ evts succ store,
      scrape_websites E websites formats (some apiKey) initStore =
        (evts, .ok (succ, store)) ∧
      (∀ e ∈ evts, ∀ key url fmts₀, e = Event.scrapeCall key url fmts₀ → key = apiKey) ∧
      (∀ g : String → Option String,
        scrape_websites { scrapeFn := E.scrapeFn, getenv := g, now := E.now }
            websites formats (some apiKey) initStore =
          scrape_websites E websites formats (some apiKey) initStore) := by
  refine ⟨_, _, _, scrape_websites_some E websites formats apiKey initStore, ?_, ?_⟩
  · intro e he key url fmts₀ hcall
    subst hcall
    rcases List.mem_append.mp he with h₁ | h₂
    · rw [scrapeLoop_events] at h₁
      rcases List.mem_append.mp h₁ with h₃ | h₄
      · simp at h₃
      · rcases batchEvents_shape E apiKey formats websites _ h₄ with ⟨uu, hc⟩ | ⟨path, c, hw⟩
        · injection hc
        · simp at hw
    · simp at h₂
  · intro g
    rw [scrape_websites_some, scrape_websites_some, scrapeLoop_getenv]

/-- Witness for C10: scraping `wBatch` with the empty-string credential — a
non-`None` value — succeeds, passes `""` to every collaborator call, and
ignores the environment. -/
theorem claim_C10_witness :
    ∃ evts succ store,
      scrape_websites wEnv wBatch ["markdown", "html"] (some "") [] =
        (evts, .ok (succ, store)) ∧
      (∀ e ∈ evts, ∀ key url fmts₀, e = Event.scrapeCall key url fmts₀ → key = "") ∧
      (∀ g : String → Option String,
        scrape_websites { scrapeFn := wEnv.scrapeFn, getenv := g, now := wEnv.now }
            wBatch ["markdown", "html"] (some "") [] =
          scrape_websites wEnv wBatch ["markdown", "html"] (some "") []) :=
  claim_C10 wEnv wBatch ["markdown", "html"] [] ""

theorem extract_parsed_isOk (d : Disk) (s : Store) (idf : String)
    (hm : d.meta = .parsed s) :
    ∃ res, extract_scraped_info d idf = .ok res := by
  cases hf : findMatch s idf with
  | none =>
      exact ⟨.notFound (notFoundMsg idf), by simp only [extract_scraped_info, hm, hf]⟩
  | some entry =>
      by_cases hcf : entry.hasContentFiles = true
      · cases hr : readContents d.files entry.contentFiles [] with
        | none =>
            exact ⟨.notFound (notFoundMsg idf),
              by simp only [extract_scraped_info, hm, hf, hcf, if_true, hr]⟩
        | some content =>
            exact ⟨.payload (some content),
              by simp only [extract_scraped_info, hm, hf, hcf, if_true, hr]⟩
      · exact ⟨.payload none,
          by simp only [extract_scraped_info, hm, hf, if_neg hcf]⟩

/-- C5: the lookup raises exactly when the metadata store is unavailable —
`FileNotFoundError` precisely when the store file does not exist (the
directory or the file itself is missing), `ValueError` precisely when the
file exists but cannot be parsed, and in every other state it returns a
result (possibly the not-found message) rather than raising. -/
theorem claim_C5 (d : Disk) (identifier : String) :
    ((∃ msg, extract_scraped_info d identifier = .error (.fileNotFoundError msg)) ↔
      (d.meta = .noDir ∨ d.meta = .noFile)) ∧
    ((∃ msg, extract_scraped_info d identifier = .error (.valueError msg)) ↔
      d.meta = .corrupt) ∧
    (∀ s, d.meta = .parsed s → ∃ res, extract_scraped_info d identifier = .ok res) := by
  obtain ⟨meta, files⟩ := d
  cases meta with
  | noDir =>
      refine ⟨⟨fun _ => Or.inl rfl, fun _ => ⟨_, rfl⟩⟩, ⟨fun h => ?_, fun h => ?_⟩, ?_⟩
      · obtain ⟨msg, hmsg⟩ := h
        rw [extract_scraped_info] at hmsg
        exact absurd hmsg (by simp)
      · exact absurd h (by simp)
      · intro s hs
        exact absurd hs (by simp)
  | noFile =>
      refine ⟨⟨fun _ => Or.inr rfl, fun _ => ⟨_, rfl⟩⟩, ⟨fun h => ?_, fun h => ?_⟩, ?_⟩
      · obtain ⟨msg, hmsg⟩ := h
        rw [extract_scraped_info] at hmsg
        exact absurd hmsg (by simp)
      · exact absurd h (by simp)
      · intro s hs
        exact absurd hs (by simp)
  | corrupt =>
      refine ⟨⟨fun h => ?_, fun h => ?_⟩, ⟨fun _ => rfl, fun _ => ⟨_, rfl⟩⟩, ?_⟩
      · obtain ⟨msg, hmsg⟩ := h
        rw [extract_scraped_info] at hmsg
        exact absurd hmsg (by simp)
      · rcases h with h | h <;> exact absurd h (by simp)
      · intro s hs
        exact absurd hs (by simp)
  | parsed s =>
      have hok := extract_parsed_isOk ⟨.parsed s, files⟩ s identifier rfl
      obtain ⟨res, hres⟩ := hok
      refine ⟨⟨fun h => ?_, fun h => ?_⟩, ⟨fun h => ?_, fun h => ?_⟩, ?_⟩
      · obtain ⟨msg, hmsg⟩ := h
        rw [hres] at hmsg
        exact absurd hmsg (by simp)
      · rcases h with h | h <;> exact absurd h (by simp)
      · obtain ⟨msg, hmsg⟩ := h
        rw [hres] at hmsg
        exact absurd hmsg (by simp)
      · exact absurd h (by simp)
      · intro s₂ hs₂
        injection hs₂ with h₂
        subst h₂
        exact ⟨res, hres⟩

/-- Witness for C5: on the disk `w5disk`, whose output directory has never
been created, the lookup fails with the file-not-found error. -/
theorem claim_C5_witness :
    ∃ msg, extract_scraped_info w5disk "acme" = .error (.fileNotFoundError msg) :=
  (claim_C5 w5disk "acme").1.mpr (Or.inl rfl)

/-- C6: when the matched record has a non-empty `content_files` and any
referenced file cannot be read, the lookup returns exactly the not-found
message — the same message the no-match path returns — and whenever a
payload is returned it covers every referenced format with the full file
content, so a strict subset is never returned. -/
theorem claim_C6 (d : Disk) (s : Store) (identifier : String) (entry : ScrapeRecord)
    (hm : d.meta = .parsed s)
    (hf : findMatch s identifier = some entry)
    (hcf : entry.hasContentFiles = true)
    (hnd : (entry.contentFiles.map Prod.fst).Nodup) :
    ((∃ pr ∈ entry.contentFiles, d.files (joinPath SCRAPE_DIR pr.2) = none) →
      extract_scraped_info d identifier = .ok (.notFound (notFoundMsg identifier))) ∧
    (∀ content, extract_scraped_info d identifier = .ok (.payload (some content)) →
      ∀ pr ∈ entry.contentFiles, ∃ c,
        d.files (joinPath SCRAPE_DIR pr.2) = some c ∧ alistGet content pr.1 = some c) ∧
    (∀ (d₂ : Disk) (s₂ : Store), d₂.meta = .parsed s₂ →
      findMatch s₂ identifier = none →
      extract_scraped_info d₂ identifier = .ok (.notFound (notFoundMsg identifier))) := by
  refine ⟨?_, ?_, ?_⟩
  · intro hmiss
    have hnone := readContents_none_of_missing d.files _ ([] : List (String × String)) hmiss
    simp only [extract_scraped_info, hm, hf, hcf, if_true, hnone]
  · intro content hres pr hpr
    simp only [extract_scraped_info, hm, hf, hcf, if_true] at hres
    cases hr : readContents d.files entry.contentFiles [] with
    | none => rw [hr] at hres; simp at hres
    | some content₂ =>
        rw [hr] at hres
        have hcc : content₂ = content := by
          injection hres with h₁
          injection h₁ with h₂
          injection h₂
        subst hcc
        exact readContents_some_covers d.files _ _ _ hnd hr pr hpr
  · intro d₂ s₂ hm₂ hf₂
    simp only [extract_scraped_info, hm₂, hf₂]

/-- Witness for C6: the disk `w6disk` whose single matched record references
a content file that every read fails on; the hypotheses hold by computation
and the lookup degrades to the not-found message. -/
theorem claim_C6_witness :
    (w6disk.meta = .parsed [("acme", w6rec)] ∧
      findMatch [("acme", w6rec)] "acme" = some w6rec ∧
      w6rec.hasContentFiles = true ∧
      (w6rec.contentFiles.map Prod.fst).Nodup) ∧
    (((∃ pr ∈ w6rec.contentFiles, w6disk.files (joinPath SCRAPE_DIR pr.2) = none) →
      extract_scraped_info w6disk "acme" = .ok (.notFound (notFoundMsg "acme"))) ∧
    (∀ content, extract_scraped_info w6disk "acme" = .ok (.payload (some content)) →
      ∀ pr ∈ w6rec.contentFiles, ∃ c,
        w6disk.files (joinPath SCRAPE_DIR pr.2) = some c ∧ alistGet content pr.1 = some c) ∧
    (∀ (d₂ : Disk) (s₂ : Store), d₂.meta = .parsed s₂ →
      findMatch s₂ "acme" = none →
      extract_scraped_info d₂ "acme" = .ok (.notFound (notFoundMsg "acme")))) :=
  ⟨⟨rfl, rfl, rfl, by decide⟩,
    claim_C6 w6disk [("acme", w6rec)] "acme" w6rec rfl rfl rfl (by decide)⟩

theorem findMatch_unique (s : Store) (r : ScrapeRecord) (idf : String)
    (hr : (r.provider_name, r) ∈ s)
    (hself : idf = r.provider_name ∨ idf = r.url ∨ idf = r.domain)
    (huniq : ∀ q₀ r₀, (q₀, r₀) ∈ s →
      (idf = q₀ ∨ idf = r₀.url ∨ idf = r₀.domain) → r₀ = r) :
    findMatch s idf = some r := by
  induction s with
  | nil => simp at hr
  | cons pr rest ih =>
      obtain ⟨q₀, r₀⟩ := pr
      rw [findMatch]
      by_cases hmatch : idf = q₀ ∨ idf = r₀.url ∨ idf = r₀.domain
      · rw [if_pos hmatch]
        rw [huniq q₀ r₀ (List.mem_cons_self _ _) hmatch]
      · rw [if_neg hmatch]
        have hhead : (q₀, r₀) ≠ (r.provider_name, r) := by
          intro hh
          injection hh with h₁ h₂
          subst h₁; subst h₂
          rcases hself with h | h | h
          · exact hmatch (Or.inl h)
          · exact hmatch (Or.inr (Or.inl h))
          · exact hmatch (Or.inr (Or.inr h))
        refine ih ?_ ?_
        · rcases List.mem_cons.mp hr with hh | hh
          · exact absurd hh.symm hhead
          · exact hh
        · intro q₁ r₁ hmem₁ hmatch₁
          exact huniq q₁ r₁ (List.mem_cons_of_mem _ hmem₁) hmatch₁

/-- C3, counterexample to the claim as stated: records "a" and "b" share the
domain `x.example.com`.  The three identifiers of record "b" do not all yield the
same payload: lookup by its provider name returns the content of "b", while
lookup by its own domain returns the content of record "a", because the linear search
hits "a" first. -/
theorem claim_C3_counterexample :
    ("b", cexB) ∈ cexStore ∧
    cexB.domain = "x.example.com" ∧
    extract_scraped_info cexDisk "b" =
      .ok (.payload (some [("markdown", "B-CONTENT")])) ∧
    extract_scraped_info cexDisk "x.example.com" =
      .ok (.payload (some [("markdown", "A-CONTENT")])) ∧
    LookupResult.payload (some [("markdown", "B-CONTENT")]) ≠
      LookupResult.payload (some [("markdown", "A-CONTENT")]) :=
  ⟨List.mem_cons_of_mem _ (List.mem_cons_self _ _), rfl, rfl, rfl, by decide⟩

/-- C3, amended: the lookup is a linear search in store iteration order,
returning the first record whose provider name, `url`, or `domain` equals the
identifier (proved as a refinement of the exact wording of the spec); and for every
stored record none of whose three identifiers also matches a different stored
record, lookup by its provider name, its exact url, and its exact domain all
return the same payload. -/
theorem claim_C3_amended (d : Disk) (s : Store) (r : ScrapeRecord)
    (hm : d.meta = .parsed s)
    (hr : (r.provider_name, r) ∈ s)
    (huniq : ∀ q₀ r₀, (q₀, r₀) ∈ s →
      ∀ idf, (idf = r.provider_name ∨ idf = r.url ∨ idf = r.domain) →
        (idf = q₀ ∨ idf = r₀.url ∨ idf = r₀.domain) → r₀ = r) :
    (∀ (s₀ : Store) (identifier : String),
      findMatch s₀ identifier = findSpec s₀ identifier) ∧
    lookupContent (extract_scraped_info d r.provider_name) =
      lookupContent (extract_scraped_info d r.url) ∧
    lookupContent (extract_scraped_info d r.url) =
      lookupContent (extract_scraped_info d r.domain) := by
  have hname : findMatch s r.provider_name = some r :=
    findMatch_unique s r r.provider_name hr (Or.inl rfl)
      (fun q₀ r₀ hmem hmat => huniq q₀ r₀ hmem _ (Or.inl rfl) hmat)
  have hurl : findMatch s r.url = some r :=
    findMatch_unique s r r.url hr (Or.inr (Or.inl rfl))
      (fun q₀ r₀ hmem hmat => huniq q₀ r₀ hmem _ (Or.inr (Or.inl rfl)) hmat)
  have hdom : findMatch s r.domain = some r :=
    findMatch_unique s r r.domain hr (Or.inr (Or.inr rfl))
      (fun q₀ r₀ hmem hmat => huniq q₀ r₀ hmem _ (Or.inr (Or.inr rfl)) hmat)
  have hsame : ∀ idf, findMatch s idf = some r →
      lookupContent (extract_scraped_info d idf) =
        if r.hasContentFiles then
          match readContents d.files r.contentFiles [] with
          | some content => some (some content)
          | none => none
        else some none := by
    intro idf hfind
    by_cases hcf : r.hasContentFiles = true
    · cases hread : readContents d.files r.contentFiles [] with
      | none =>
          simp only [extract_scraped_info, hm, hfind, hcf, if_true, hread, lookupContent]
      | some content =>
          simp only [extract_scraped_info, hm, hfind, hcf, if_true, hread, lookupContent]
    · simp only [extract_scraped_info, hm, hfind, if_neg hcf, lookupContent,
        Bool.not_eq_true] at hcf ⊢
  refine ⟨findMatch_eq_findSpec, ?_, ?_⟩
  · rw [hsame _ hname, hsame _ hurl]
  · rw [hsame _ hurl, hsame _ hdom]

/-- Witness for the amended C3: the single-record store of `w6rec` on a disk
where its content file is readable; all hypotheses hold by computation. -/
theorem claim_C3_amended_witness :
    (w3disk.meta = .parsed [("acme", w6rec)] ∧
      (w6rec.provider_name, w6rec) ∈ [("acme", w6rec)]) ∧
    ((∀ (s₀ : Store) (identifier : String),
      findMatch s₀ identifier = findSpec s₀ identifier) ∧
    lookupContent (extract_scraped_info w3disk w6rec.provider_name) =
      lookupContent (extract_scraped_info w3disk w6rec.url) ∧
    lookupContent (extract_scraped_info w3disk w6rec.url) =
      lookupContent (extract_scraped_info w3disk w6rec.domain)) :=
  ⟨⟨rfl, List.mem_cons_self _ _⟩,
    claim_C3_amended w3disk [("acme", w6rec)] w6rec rfl (List.mem_cons_self _ _)
      (by
        intro q₀ r₀ hmem idf hid hmat
        rcases List.mem_cons.mp hmem with hh | hh
        · injection hh
        · simp at hh)⟩

/-- C4: on every successful per-provider scrape, the keys of the
`content_files` of the record are a subset of the requested formats; a requested format is
recorded exactly when the response of the collaborator holds truthy (non-empty)
content for it; and the filename recorded for each format is
`{provider_name}_{format}.txt`, with the content written to that file under
the output directory. -/
theorem claim_C4 (E : ScrapeEnv) (apiKey p u : String) (fmts : List String)
    (resp : Json) (evts : List Event) (r : ScrapeRecord)
    (hresp : E.scrapeFn apiKey u fmts = .ok resp)
    (h : tryScrapeProvider E apiKey p u fmts = (evts, .ok r)) :
    ∃ cf title descr, r.outcome = .success cf title descr ∧
      (∀ fmt fn, alistGet cf fmt = some fn → fmt ∈ fmts) ∧
      (∀ fmt, fmt ∈ fmts →
        ((alistGet cf fmt).isSome = true ↔ (jContent resp fmt).truthy = true)) ∧
      (∀ fmt fn, alistGet cf fmt = some fn →
        fn = p ++ "_" ++ fmt ++ ".txt" ∧
        Event.writeContent (joinPath SCRAPE_DIR fn) (jStr (jContent resp fmt)) ∈ evts) := by
  simp only [tryScrapeProvider, hresp] at h
  split at h
  · simp at h
  · split at h
    · simp at h
    · split at h
      next wEvts err hw => simp at h
      next wEvts cf hw =>
        split at h
        · simp at h
        next t dsc htd =>
          injection h with h₁ h₂
          injection h₂ with h₃
          subst h₁
          subst h₃
          have hget := writeFormats_ok_get p resp fmts [] [] wEvts cf hw
          have hevts := writeFormats_ok_events p resp fmts [] [] wEvts cf hw
          refine ⟨cf, t, dsc, rfl, ?_, ?_, ?_⟩
          · intro fmt fn hfn
            by_cases hcond : fmt ∈ fmts ∧ (jContent resp fmt).truthy = true
            · exact hcond.1
            · rw [hget fmt, if_neg hcond] at hfn
              simp [alistGet] at hfn
          · intro fmt hfmt
            constructor
            · intro hsome
              by_cases hcond : fmt ∈ fmts ∧ (jContent resp fmt).truthy = true
              · exact hcond.2
              · rw [hget fmt, if_neg hcond] at hsome
                simp [alistGet] at hsome
            · intro htr
              rw [hget fmt, if_pos ⟨hfmt, htr⟩]
              rfl
          · intro fmt fn hfn
            by_cases hcond : fmt ∈ fmts ∧ (jContent resp fmt).truthy = true
            · rw [hget fmt, if_pos hcond] at hfn
              injection hfn with hfn₁
              refine ⟨hfn₁.symm, ?_⟩
              refine List.mem_append.mpr (Or.inr ?_)
              rw [hevts]
              refine List.mem_append.mpr (Or.inr ?_)
              refine List.mem_map.mpr ⟨fmt, List.mem_filter.mpr ⟨hcond.1, by simpa using hcond.2⟩, ?_⟩
              rw [hfn₁]
            · rw [hget fmt, if_neg hcond] at hfn
              simp [alistGet] at hfn

/-- Witness for C4: the scrape of provider "a" under `wEnv` with both formats
present in the response; the hypotheses are discharged by computation. -/
theorem claim_C4_witness :
    (wEnv.scrapeFn "KEY" "https://a.example.com/p" ["markdown", "html"] = .ok wResp ∧
      tryScrapeProvider wEnv "KEY" "a" "https://a.example.com/p" ["markdown", "html"] =
        (wEvtsA, .ok wRecA)) ∧
    (∃ cf title descr, wRecA.outcome = .success cf title descr ∧
      (∀ fmt fn, alistGet cf fmt = some fn → fmt ∈ ["markdown", "html"]) ∧
      (∀ fmt, fmt ∈ ["markdown", "html"] →
        ((alistGet cf fmt).isSome = true ↔ (jContent wResp fmt).truthy = true)) ∧
      (∀ fmt fn, alistGet cf fmt = some fn →
        fn = "a" ++ "_" ++ fmt ++ ".txt" ∧
        Event.writeContent (joinPath SCRAPE_DIR fn) (jStr (jContent wResp fmt)) ∈ wEvtsA)) :=
  ⟨⟨rfl, rfl⟩,
    claim_C4 wEnv "KEY" "a" "https://a.example.com/p" ["markdown", "html"]
      wResp wEvtsA wRecA rfl rfl⟩

/-- C9: the recorded title and description of every successful scrape come
from the `metadata` key nested inside the top-level `metadata` object of
the response; in particular when that nested key is absent — even if title and
description sit directly on the metadata object — both are recorded as the
empty string. -/
theorem claim_C9 (E : ScrapeEnv) (apiKey p u : String) (fmts : List String)
    (resp : Json) (evts : List Event) (r : ScrapeRecord) (mfs : List (String × Json))
    (hresp : E.scrapeFn apiKey u fmts = .ok resp)
    (h : tryScrapeProvider E apiKey p u fmts = (evts, .ok r))
    (hmeta : resp.dictGet "metadata" (.obj []) = .ok (.obj mfs)) :
    ∃ cf title descr, r.outcome = .success cf title descr ∧
      titleDescription (.obj mfs) = .ok (title, descr) ∧
      (alistGet mfs "metadata" = none →
        title = .str "" ∧ descr = .str "") := by
  simp only [tryScrapeProvider, hresp] at h
  split at h
  · simp at h
  · split at h
    next err hsrd => simp at h
    next srd hsrd =>
      have hsrdm : srd = .obj mfs := by
        rw [hmeta] at hsrd
        injection hsrd with hh
        exact hh.symm
      subst hsrdm
      split at h
      next wEvts err hw => simp at h
      next wEvts cf hw =>
        split at h
        · simp at h
        next t dsc htd =>
          injection h with h₁ h₂
          injection h₂ with h₃
          subst h₁
          subst h₃
          refine ⟨cf, t, dsc, rfl, htd, ?_⟩
          intro hnone
          rw [titleDescription] at htd
          simp only [Json.dictGet, hnone, Option.getD] at htd
          simp only [alistGet] at htd
          injection htd with hpair
          have ht₂ : Json.str "" = t := congrArg Prod.fst hpair
          have hd₂ : Json.str "" = dsc := congrArg Prod.snd hpair
          exact ⟨ht₂.symm, hd₂.symm⟩

/-- Witness for C9: under `w9env` the metadata of the response carries
`title`/`description` directly and no nested `metadata` key, and the built
record stores the empty string for both. -/
theorem claim_C9_witness :
    (w9env.scrapeFn "K" "https://p.example.com/" ["markdown"] = .ok w9resp ∧
      tryScrapeProvider w9env "K" "p" "https://p.example.com/" ["markdown"] =
        (w9evts, .ok w9rec) ∧
      w9resp.dictGet "metadata" (.obj []) = .ok (.obj w9mfs) ∧
      alistGet w9mfs "metadata" = none) ∧
    (∃ cf title descr, w9rec.outcome = .success cf title descr ∧
      titleDescription (.obj w9mfs) = .ok (title, descr) ∧
      (alistGet w9mfs "metadata" = none →
        title = .str "" ∧ descr = .str "")) :=
  ⟨⟨rfl, rfl, rfl, rfl⟩,
    claim_C9 w9env "K" "p" "https://p.example.com/" ["markdown"]
      w9resp w9evts w9rec w9mfs rfl rfl rfl⟩

end StarterServer
